import Mathlib

/-!
Shallow embedding of the DOMEX liquidity rate-limiting circuit breaker.

The repository contains the CircuitBreaker contract's Hardhat unit tests,
its deployment scripts and its ABI declarations, but not the contract body
itself.  Every definition of the engine below is therefore modelled from
the specification (spec.md), faithful to its words, with signatures and
names taken from the ABI declarations and tests under src/.
-/

abbrev Identifier := Nat
abbrev Addr := Nat

/-- Modelled from the spec: the tick bucket of a timestamp is
`timestamp - (timestamp mod TICK_LENGTH)` (CircuitBreaker contract body
missing from src/). -/
def tickOf (TICK_LENGTH timestamp : Nat) : Nat :=
  timestamp - timestamp % TICK_LENGTH

/-- Modelled from the spec: the per-identifier tick chain is a forward-only
singly linked chain of `(tickTimestamp, amountDelta)` nodes ordered by time,
represented here directly as the ordered list of nodes (each node's
`nextTimestamp` pointer is the following list entry, the head pointer is the
first entry, and the sentinel is the end of the list). -/
abbrev Ledger := List (Nat × Int)

/-- Modelled from the spec: `record(identifier, timestamp, signedAmount)` adds
the signed amount to the tick bucket, inserting a new node into the chain in
timestamp order if none exists for that bucket, and updating the node in place
for subsequent deltas in the same tick (CircuitBreaker contract body missing
from src/). -/
def recordTick : Ledger → Nat → Int → Ledger
  | [], tick, d => [(tick, d)]
  | (t, a) :: rest, tick, d =>
    if tick < t then (tick, d) :: (t, a) :: rest
    else if tick = t then (t, a + d) :: rest
    else (t, a) :: recordTick rest tick d

/-- Membership of a tick timestamp in the trailing evaluation window
`[asOf - WITHDRAWAL_PERIOD, asOf]`, both ends inclusive. -/
def inWindow (W asOf t : Nat) : Bool :=
  decide (asOf - W ≤ t) && decide (t ≤ asOf)

/-- Modelled from the spec: `windowedSum(identifier, asOf)` walks the chain
from the earliest retained node, summing `amountDelta` for nodes with
timestamp in `[asOf - WITHDRAWAL_PERIOD, asOf]`, skipping (but not evicting)
older nodes (CircuitBreaker contract body missing from src/). -/
def windowedSum (W : Nat) (led : Ledger) (asOf : Nat) : Int :=
  ((led.filter (fun p => inWindow W asOf p.1)).map Prod.snd).sum

/-- Modelled from the spec: `evict(identifier, maxIterations)` walks from the
head, removing nodes with timestamp strictly below the cutoff
`now - WITHDRAWAL_PERIOD`, advancing the head pointer, stopping after
`maxIterations` removals, and returns the count actually removed
(CircuitBreaker contract body missing from src/). -/
def evict : Ledger → Nat → Nat → Ledger × Nat
  | led, _, 0 => (led, 0)
  | [], _, _ => ([], 0)
  | (t, a) :: rest, cutoff, m + 1 =>
    if t < cutoff then
      let r := evict rest cutoff m
      (r.1, r.2 + 1)
    else ((t, a) :: rest, 0)

/-- Modelled from the spec: one `SecurityParameter` registry entry per
identifier, holding configuration, live state and this identifier's tick
chain (CircuitBreaker contract body missing from src/). -/
structure SecurityParameter where
  minLiqRetainedBps : Nat
  limitBeginThreshold : Nat
  settlementModule : Addr
  liquidityTotal : Int
  rateLimited : Bool
  lastTripTimestamp : Nat
  overridden : Bool
  ledger : Ledger
  deriving DecidableEq, Repr

/-- Modelled from the spec: the global configuration and state of the
CircuitBreaker contract (body missing from src/): immutable deployment
parameters, the kill switch, grace period end, the global rate-limited flag,
the protected-contract set and the per-identifier registry. -/
structure CircuitBreaker where
  rateLimitCooldownPeriod : Nat
  WITHDRAWAL_PERIOD : Nat
  TICK_LENGTH : Nat
  owner : Addr
  operational : Bool
  gracePeriodEndTimestamp : Nat
  globalRateLimited : Bool
  protectedContracts : List Addr
  limiters : List (Identifier × SecurityParameter)
  deriving DecidableEq, Repr

/-- Error taxonomy of the contract, from the custom error names observed in
the tests (`CircuitBreaker__...`, `OwnableUnauthorizedAccount`). -/
inductive CBError where
  | OwnableUnauthorizedAccount
  | NotAProtectedContract
  | NotOperational
  | NotRateLimited
  | CooldownNotElapsed
  | AlreadyExists
  | InvalidBps
  | NotFound
  | InvalidGracePeriodEnd
  deriving DecidableEq, Repr

/-- Emitted notifications observed in the tests: `SecurityParameterAdded` and
`GracePeriodStarted`, carrying the supplied arguments. -/
inductive CBEvent where
  | SecurityParameterAdded (identifier : Identifier)
      (minLiqRetainedBps limitBeginThreshold : Nat) (settlementModule : Addr)
  | GracePeriodStarted (gracePeriodEndTimestamp : Nat)
  deriving DecidableEq, Repr

/-- Outcome of a decrease call that did not revert: either it completed as a
normal outflow, or it was diverted to the settlement module with the
identifier, amount and caller-supplied payload (spec section 4.2). -/
inductive DecreaseOutcome where
  | completed
  | diverted (settlementModule : Addr) (identifier : Identifier)
      (amount : Nat) (payload : Nat)
  deriving DecidableEq, Repr

/-- Decidable equality of call results, used to evaluate the model on
concrete inputs. -/
instance {ε α : Type} [DecidableEq ε] [DecidableEq α] :
    DecidableEq (Except ε α)
  | .error e, .error f =>
    if h : e = f then .isTrue (by rw [h]) else .isFalse (by simp [h])
  | .error _, .ok _ => .isFalse (by simp)
  | .ok _, .error _ => .isFalse (by simp)
  | .ok a, .ok b =>
    if h : a = b then .isTrue (by rw [h]) else .isFalse (by simp [h])

/-- Lookup of the first registry entry with the given identifier. -/
def lookupLimiter : List (Identifier × SecurityParameter) → Identifier →
    Option SecurityParameter
  | [], _ => none
  | (i, p) :: rest, identifier =>
    if i = identifier then some p else lookupLimiter rest identifier

/-- Replacement of the first registry entry with the given identifier. -/
def updateList : List (Identifier × SecurityParameter) → Identifier →
    SecurityParameter → List (Identifier × SecurityParameter)
  | [], _, _ => []
  | (i, q) :: rest, identifier, p =>
    if i = identifier then (i, p) :: rest
    else (i, q) :: updateList rest identifier p

/-- Registry read for one identifier. -/
def getLimiter (cb : CircuitBreaker) (identifier : Identifier) :
    Option SecurityParameter :=
  lookupLimiter cb.limiters identifier

/-- Registry write for one identifier. -/
def setLimiter (cb : CircuitBreaker) (identifier : Identifier)
    (p : SecurityParameter) : CircuitBreaker :=
  { cb with limiters := updateList cb.limiters identifier p }

/-- Modelled from the spec and the deployment tests: the constructor takes
`(rateLimitCooldown, withdrawalPeriod, tickLength, ownerAddress)`; the
contract starts operational, not rate limited, with no grace period, no
protected contracts and an empty registry. -/
def deployCircuitBreaker (rateLimitCooldown withdrawalPeriod tickLength : Nat)
    (ownerAddress : Addr) : CircuitBreaker :=
  { rateLimitCooldownPeriod := rateLimitCooldown
    WITHDRAWAL_PERIOD := withdrawalPeriod
    TICK_LENGTH := tickLength
    owner := ownerAddress
    operational := true
    gracePeriodEndTimestamp := 0
    globalRateLimited := false
    protectedContracts := []
    limiters := [] }

/-- View: global operational flag. -/
def isOperational (cb : CircuitBreaker) : Bool := cb.operational

/-- View: global rate-limited flag. -/
def isRateLimited (cb : CircuitBreaker) : Bool := cb.globalRateLimited

/-- View: per-identifier rate-limited flag (mapping default false when the
identifier is unregistered). -/
def isParameterRateLimited (cb : CircuitBreaker) (identifier : Identifier) :
    Bool :=
  match getLimiter cb identifier with
  | some p => p.rateLimited
  | none => false

/-- Modelled from the spec: `isInGracePeriod()` is a pure function of
`now < gracePeriodEndTimestamp`. -/
def isInGracePeriod (cb : CircuitBreaker) (now : Nat) : Bool :=
  decide (now < cb.gracePeriodEndTimestamp)

/-- View: membership in the protected-contract set. -/
def isProtectedContract (cb : CircuitBreaker) (a : Addr) : Bool :=
  cb.protectedContracts.contains a

/-- Modelled from the spec: owner-only addition to the protected-contract
set (CircuitBreaker contract body missing from src/). -/
def addProtectedContracts (cb : CircuitBreaker) (caller : Addr)
    (contracts : List Addr) : Except CBError CircuitBreaker :=
  if caller ≠ cb.owner then .error .OwnableUnauthorizedAccount
  else .ok { cb with protectedContracts := cb.protectedContracts ++ contracts }

/-- Modelled from the spec: owner-only removal from the protected-contract
set (CircuitBreaker contract body missing from src/). -/
def removeProtectedContracts (cb : CircuitBreaker) (caller : Addr)
    (contracts : List Addr) : Except CBError CircuitBreaker :=
  if caller ≠ cb.owner then .error .OwnableUnauthorizedAccount
  else .ok { cb with protectedContracts :=
    cb.protectedContracts.filter (fun a => ¬ contracts.contains a) }

/-- Modelled from the spec: `addSecurityParameter` is owner-only, fails with
`AlreadyExists` if the identifier is already registered, fails with
`InvalidBps` if `minLiqRetainedBps > 10000`, and otherwise registers the
entry with zeroed live state and emits `SecurityParameterAdded` with the
supplied arguments (CircuitBreaker contract body missing from src/). -/
def addSecurityParameter (cb : CircuitBreaker) (caller : Addr)
    (identifier : Identifier) (minLiqRetainedBps limitBeginThreshold : Nat)
    (settlementModule : Addr) : Except CBError (CircuitBreaker × CBEvent) :=
  if caller ≠ cb.owner then .error .OwnableUnauthorizedAccount
  else if (getLimiter cb identifier).isSome then .error .AlreadyExists
  else if 10000 < minLiqRetainedBps then .error .InvalidBps
  else .ok
    ({ cb with limiters := cb.limiters ++
        [(identifier,
          { minLiqRetainedBps := minLiqRetainedBps
            limitBeginThreshold := limitBeginThreshold
            settlementModule := settlementModule
            liquidityTotal := 0
            rateLimited := false
            lastTripTimestamp := 0
            overridden := false
            ledger := [] })] },
     .SecurityParameterAdded identifier minLiqRetainedBps limitBeginThreshold
       settlementModule)

/-- Modelled from the spec: owner-only kill-switch toggle (CircuitBreaker
contract body missing from src/). -/
def setCircuitBreakerOperationalStatus (cb : CircuitBreaker) (caller : Addr)
    (newOperationalStatus : Bool) : Except CBError CircuitBreaker :=
  if caller ≠ cb.owner then .error .OwnableUnauthorizedAccount
  else .ok { cb with operational := newOperationalStatus }

/-- Modelled from the spec: `startGracePeriod` is owner-only, fails with
`InvalidGracePeriodEnd` if the requested end is not strictly in the future,
and otherwise sets the global grace-period end time (CircuitBreaker contract
body missing from src/). -/
def startGracePeriod (cb : CircuitBreaker) (caller : Addr)
    (gracePeriodEnd now : Nat) : Except CBError CircuitBreaker :=
  if caller ≠ cb.owner then .error .OwnableUnauthorizedAccount
  else if gracePeriodEnd ≤ now then .error .InvalidGracePeriodEnd
  else .ok { cb with gracePeriodEndTimestamp := gracePeriodEnd }

/-- Modelled from the spec: `overrideRateLimit(identifier)` is owner-only,
fails with `NotRateLimited` if the identifier's `rateLimited` flag is false
(also for an unregistered identifier, whose mapping default is false), fails
with `CooldownNotElapsed` if `now - lastTripTimestamp` is below
`rateLimitCooldownPeriod`, and otherwise resets `rateLimited` to false and
recomputes `globalRateLimited` as the logical OR over all identifiers
(CircuitBreaker contract body missing from src/). -/
def overrideRateLimit (cb : CircuitBreaker) (caller : Addr)
    (identifier : Identifier) (now : Nat) : Except CBError CircuitBreaker :=
  if caller ≠ cb.owner then .error .OwnableUnauthorizedAccount
  else match getLimiter cb identifier with
  | none => .error .NotRateLimited
  | some p =>
    if p.rateLimited = false then .error .NotRateLimited
    else if now - p.lastTripTimestamp < cb.rateLimitCooldownPeriod then
      .error .CooldownNotElapsed
    else
      let cb1 := setLimiter cb identifier { p with rateLimited := false }
      .ok { cb1 with
        globalRateLimited := cb1.limiters.any (fun q => q.2.rateLimited) }

/-- Modelled from the spec: `setLimiterOverriden(identifier, overrideStatus)`
is owner-only, sets the identifier's `overridden` flag to the supplied
boolean and returns the new value (CircuitBreaker contract body missing from
src/). -/
def setLimiterOverriden (cb : CircuitBreaker) (caller : Addr)
    (identifier : Identifier) (overrideStatus : Bool) :
    Except CBError (CircuitBreaker × Bool) :=
  if caller ≠ cb.owner then .error .OwnableUnauthorizedAccount
  else match getLimiter cb identifier with
  | none => .error .NotFound
  | some p =>
    .ok (setLimiter cb identifier { p with overridden := overrideStatus },
      overrideStatus)

/-- Modelled from the spec: `clearBackLog(identifier, maxIterations)` is
owner-only and evicts from the head of the identifier's chain the nodes with
timestamp strictly older than `now - WITHDRAWAL_PERIOD`, at most
`maxIterations` of them, returning the count removed (CircuitBreaker contract
body missing from src/). -/
def clearBackLog (cb : CircuitBreaker) (caller : Addr)
    (identifier : Identifier) (maxIterations now : Nat) :
    Except CBError (CircuitBreaker × Nat) :=
  if caller ≠ cb.owner then .error .OwnableUnauthorizedAccount
  else match getLimiter cb identifier with
  | none => .error .NotFound
  | some p =>
    let r := evict p.ledger (now - cb.WITHDRAWAL_PERIOD) maxIterations
    .ok (setLimiter cb identifier { p with ledger := r.1 }, r.2)

/-- Modelled from the spec: `increaseParameter` first checks membership in the
protected set (`NotAProtectedContract`), then the operational flag
(`NotOperational`), records the positive delta in the tick ledger and in
`liquidityTotal`, and never trips (CircuitBreaker contract body missing from
src/). -/
def increaseParameter (cb : CircuitBreaker) (caller : Addr)
    (identifier : Identifier) (amount : Nat) (token : Addr)
    (settlementAmount : Nat) (payload : Nat) (now : Nat) :
    Except CBError CircuitBreaker :=
  if isProtectedContract cb caller = false then .error .NotAProtectedContract
  else if cb.operational = false then .error .NotOperational
  else match getLimiter cb identifier with
  | none => .error .NotFound
  | some p =>
    .ok (setLimiter cb identifier
      { p with
        ledger := recordTick p.ledger (tickOf cb.TICK_LENGTH now) (amount : Int)
        liquidityTotal := p.liquidityTotal + (amount : Int) })

/-- Modelled from the spec: `decreaseParameter` first checks membership in the
protected set (`NotAProtectedContract`), then the operational flag
(`NotOperational`); the tick ledger records the delta, then the decision
engine allows unconditionally when in grace period, when the identifier is
overridden, or when `amount < limitBeginThreshold`; otherwise it compares the
projected remaining liquidity `liquidityTotal - amount` against the floor
`historicalLiquidity * minLiqRetainedBps / 10000` with `historicalLiquidity`
the `liquidityTotal` before this decrease (spec section 4.2 step 3); on trip
it sets the per-identifier `rateLimited` flag and `globalRateLimited`,
records `lastTripTimestamp = now`, and diverts the amount, identifier and
payload to the settlement module instead of completing (CircuitBreaker
contract body missing from src/). -/
def decreaseParameter (cb : CircuitBreaker) (caller : Addr)
    (identifier : Identifier) (amount : Nat) (token : Addr)
    (settlementAmount : Nat) (payload : Nat) (now : Nat) :
    Except CBError (CircuitBreaker × DecreaseOutcome) :=
  if isProtectedContract cb caller = false then .error .NotAProtectedContract
  else if cb.operational = false then .error .NotOperational
  else match getLimiter cb identifier with
  | none => .error .NotFound
  | some p =>
    let recorded : SecurityParameter :=
      { p with
        ledger :=
          recordTick p.ledger (tickOf cb.TICK_LENGTH now) (-(amount : Int))
        liquidityTotal := p.liquidityTotal - (amount : Int) }
    if isInGracePeriod cb now || p.overridden
        || decide (amount < p.limitBeginThreshold) then
      .ok (setLimiter cb identifier recorded, .completed)
    else
      let historicalLiquidity := p.liquidityTotal
      let minRetainedFloor :=
        historicalLiquidity * (p.minLiqRetainedBps : Int) / 10000
      let projectedRemaining := p.liquidityTotal - (amount : Int)
      if projectedRemaining < minRetainedFloor then
        let tripped : SecurityParameter :=
          { recorded with rateLimited := true, lastTripTimestamp := now }
        .ok ({ setLimiter cb identifier tripped with globalRateLimited := true },
          .diverted p.settlementModule identifier amount payload)
      else
        .ok (setLimiter cb identifier recorded, .completed)

/-- Ledger obtained by recording a list of `(timestamp, signedAmount)`
operations, in order, into an initially empty chain. -/
def buildLedger (TICK_LENGTH : Nat) (ops : List (Nat × Int)) : Ledger :=
  ops.foldl (fun led op => recordTick led (tickOf TICK_LENGTH op.1) op.2) []

/-! ## Concrete states used by the witnesses -/

/-- Example deployment with the unit tests' constructor arguments
(cooldown one day, withdrawal period seven days, tick length one hour,
owner address 1). -/
def cbDeployed : CircuitBreaker := deployCircuitBreaker 86400 604800 3600 1

/-- Example registry entry with the unit tests' configuration values. -/
def pDefault : SecurityParameter :=
  { minLiqRetainedBps := 5000
    limitBeginThreshold := 1000 * 10 ^ 18
    settlementModule := 9
    liquidityTotal := 0
    rateLimited := false
    lastTripTimestamp := 0
    overridden := false
    ledger := [] }

/-- Example state with one protected contract (address 2) and identifier 7
registered with the test configuration. -/
def cbWithParam : CircuitBreaker :=
  { cbDeployed with protectedContracts := [2], limiters := [(7, pDefault)] }

/-- Example registry entry that tripped at time 1000. -/
def pTripped : SecurityParameter :=
  { pDefault with rateLimited := true, lastTripTimestamp := 1000 }

/-- Example state where identifier 7 tripped at time 1000. -/
def cbTripped : CircuitBreaker :=
  { cbWithParam with
    limiters := [(7, pTripped)]
    globalRateLimited := true }

/-- Scenario deployment from the spec: `TICK_LENGTH = 600`,
`WITHDRAWAL_PERIOD = 172800`, cooldown 3600, owner address 1. -/
def cbScenario0 : CircuitBreaker := deployCircuitBreaker 3600 172800 600 1

/-- Scenario step: the owner registers address 2 as a protected contract. -/
def cbScenario1 : CircuitBreaker :=
  match addProtectedContracts cbScenario0 1 [2] with
  | .ok r => r
  | .error _ => cbScenario0

/-- Scenario step: the owner registers identifier 7 with
`minLiqRetainedBps = 5000`, `limitBeginThreshold = 1000e18`,
settlement module 9. -/
def cbScenario2 : CircuitBreaker :=
  match addSecurityParameter cbScenario1 1 7 5000 (1000 * 10 ^ 18) 9 with
  | .ok r => r.1
  | .error _ => cbScenario1

/-- Scenario step: the protected contract increases identifier 7 by
`2000e18` at time 700 (tick 600). -/
def cbScenario3 : CircuitBreaker :=
  match increaseParameter cbScenario2 2 7 (2000 * 10 ^ 18) 0 0 0 700 with
  | .ok r => r
  | .error _ => cbScenario2

/-- Registry entry of identifier 7 after the scenario increase. -/
def pScenario : SecurityParameter :=
  { pDefault with
    liquidityTotal := (2000 * 10 ^ 18 : Int)
    ledger := [(600, (2000 * 10 ^ 18 : Int))] }

/-- Scenario step: the protected contract decreases identifier 7 by the
de-minimis amount `50e18` at time 800. -/
def cbAfterSmallDecrease : CircuitBreaker :=
  match decreaseParameter cbScenario3 2 7 (50 * 10 ^ 18) 0 0 0 800 with
  | .ok r => r.1
  | .error _ => cbScenario3

/-- Example registry entry with a three-node tick chain: two nodes older
than the window at time 700500 under `WITHDRAWAL_PERIOD = 604800`, one
live node. -/
def pLedgered : SecurityParameter :=
  { pDefault with ledger := [(0, 5), (3600, -2), (700000, 7)] }

/-- Example state with the three-node tick chain registered under
identifier 7. -/
def cbLedgered : CircuitBreaker :=
  { cbDeployed with limiters := [(7, pLedgered)] }

/-! ## Registry lookup and update lemmas -/

theorem lookupLimiter_updateList_self (l : List (Identifier × SecurityParameter))
    (identifier : Identifier) (p q : SecurityParameter)
    (h : lookupLimiter l identifier = some q) :
    lookupLimiter (updateList l identifier p) identifier = some p := by
  induction l with
  | nil => simp [lookupLimiter] at h
  | cons hd tl ih =>
    obtain ⟨i, r⟩ := hd
    by_cases hi : i = identifier
    · simp [lookupLimiter, updateList, hi]
    · simp only [lookupLimiter, updateList, if_neg hi] at h ⊢
      exact ih h

theorem lookupLimiter_updateList_ne (l : List (Identifier × SecurityParameter))
    (identifier i : Identifier) (p : SecurityParameter) (hne : i ≠ identifier) :
    lookupLimiter (updateList l identifier p) i = lookupLimiter l i := by
  induction l with
  | nil => simp [lookupLimiter, updateList]
  | cons hd tl ih =>
    obtain ⟨j, r⟩ := hd
    by_cases hj : j = identifier
    · subst hj
      simp [lookupLimiter, updateList, Ne.symm hne]
    · simp only [lookupLimiter, updateList, if_neg hj]
      by_cases hji : j = i
      · simp [hji]
      · simp [hji, ih]

theorem updateList_updateList (l : List (Identifier × SecurityParameter))
    (identifier : Identifier) (p q : SecurityParameter) :
    updateList (updateList l identifier p) identifier q =
      updateList l identifier q := by
  induction l with
  | nil => simp [updateList]
  | cons hd tl ih =>
    obtain ⟨i, r⟩ := hd
    by_cases hi : i = identifier
    · simp [updateList, hi]
    · simp [updateList, hi, ih]

/-! ## C10 -/

/-- C10: immediately after construction with arguments
`(rateLimitCooldown, withdrawalPeriod, tickLength, ownerAddress)`,
`isOperational()` is true, `isRateLimited()` is false, and the getters
`rateLimitCooldownPeriod`, `WITHDRAWAL_PERIOD`, `TICK_LENGTH` and `owner`
return exactly the corresponding constructor arguments. -/
theorem deployment_initial_state (rateLimitCooldown withdrawalPeriod
    tickLength : Nat) (ownerAddress : Addr) :
    isOperational (deployCircuitBreaker rateLimitCooldown withdrawalPeriod
      tickLength ownerAddress) = true ∧
    isRateLimited (deployCircuitBreaker rateLimitCooldown withdrawalPeriod
      tickLength ownerAddress) = false ∧
    (deployCircuitBreaker rateLimitCooldown withdrawalPeriod tickLength
      ownerAddress).rateLimitCooldownPeriod = rateLimitCooldown ∧
    (deployCircuitBreaker rateLimitCooldown withdrawalPeriod tickLength
      ownerAddress).WITHDRAWAL_PERIOD = withdrawalPeriod ∧
    (deployCircuitBreaker rateLimitCooldown withdrawalPeriod tickLength
      ownerAddress).TICK_LENGTH = tickLength ∧
    (deployCircuitBreaker rateLimitCooldown withdrawalPeriod tickLength
      ownerAddress).owner = ownerAddress :=
  ⟨rfl, rfl, rfl, rfl, rfl, rfl⟩

/-! ## C5 -/

/-- C5: both mutating entry points invocable by protected callers
(`increaseParameter`, `decreaseParameter`) first fail with
`NotAProtectedContract` when the caller is not in the protected-contract
set, then fail with `NotOperational` when the global operational flag is
false, for every identifier, amount and payload. -/
theorem accessGate_checks :
    (∀ (cb : CircuitBreaker) (caller : Addr) (identifier : Identifier)
        (amount : Nat) (token : Addr) (settlementAmount payload now : Nat),
      isProtectedContract cb caller = false →
        increaseParameter cb caller identifier amount token settlementAmount
          payload now = .error .NotAProtectedContract ∧
        decreaseParameter cb caller identifier amount token settlementAmount
          payload now = .error .NotAProtectedContract) ∧
    (∀ (cb : CircuitBreaker) (caller : Addr) (identifier : Identifier)
        (amount : Nat) (token : Addr) (settlementAmount payload now : Nat),
      isProtectedContract cb caller = true → cb.operational = false →
        increaseParameter cb caller identifier amount token settlementAmount
          payload now = .error .NotOperational ∧
        decreaseParameter cb caller identifier amount token settlementAmount
          payload now = .error .NotOperational) := by
  constructor
  · intro cb caller identifier amount token settlementAmount payload now h
    constructor <;> simp [increaseParameter, decreaseParameter, h]
  · intro cb caller identifier amount token settlementAmount payload now h1 h2
    constructor <;> simp [increaseParameter, decreaseParameter, h1, h2]

/-- C5 witness: on a deployment with no protected contracts, a call by
address 99 fails with `NotAProtectedContract`; on a non-operational state, a
protected caller fails with `NotOperational`. -/
theorem accessGate_checks_witness :
    increaseParameter cbDeployed 99 7 5 0 0 0 1000 =
      .error .NotAProtectedContract ∧
    decreaseParameter { cbWithParam with operational := false } 2 7 5 0 0 0
      1000 = .error .NotOperational :=
  ⟨(accessGate_checks.1 cbDeployed 99 7 5 0 0 0 1000 (by decide)).1,
   (accessGate_checks.2 { cbWithParam with operational := false } 2 7 5 0 0 0
      1000 (by decide) (by decide)).2⟩

/-! ## C7 -/

/-- C7: `startGracePeriod(endTimestamp)`, called by the owner, fails with
`InvalidGracePeriodEnd` exactly when `endTimestamp <= now`, otherwise sets the
global grace-period end time; after a successful call `isInGracePeriod()` is
true for every time strictly below `gracePeriodEndTimestamp` and false at and
after it, with no explicit deactivation call required. -/
theorem startGracePeriod_spec (cb : CircuitBreaker) (caller : Addr)
    (gracePeriodEnd now : Nat) (hown : caller = cb.owner) :
    (gracePeriodEnd ≤ now →
      startGracePeriod cb caller gracePeriodEnd now =
        .error .InvalidGracePeriodEnd) ∧
    (now < gracePeriodEnd →
      startGracePeriod cb caller gracePeriodEnd now =
        .ok { cb with gracePeriodEndTimestamp := gracePeriodEnd } ∧
      ∀ t, isInGracePeriod { cb with gracePeriodEndTimestamp := gracePeriodEnd }
        t = decide (t < gracePeriodEnd)) := by
  constructor
  · intro h
    simp [startGracePeriod, hown, h]
  · intro h
    refine ⟨?_, fun t => rfl⟩
    simp [startGracePeriod, hown, Nat.not_le.mpr h]

/-- C7 witness: on the example deployment, the owner cannot set a grace-period
end of 50 at time 100, and setting an end of 200 at time 100 succeeds with
`isInGracePeriod` true at 199 and false at 200. -/
theorem startGracePeriod_spec_witness :
    startGracePeriod cbDeployed 1 50 100 = .error .InvalidGracePeriodEnd ∧
    startGracePeriod cbDeployed 1 200 100 =
      .ok { cbDeployed with gracePeriodEndTimestamp := 200 } ∧
    isInGracePeriod { cbDeployed with gracePeriodEndTimestamp := 200 } 199 =
      decide (199 < 200) ∧
    isInGracePeriod { cbDeployed with gracePeriodEndTimestamp := 200 } 200 =
      decide (200 < 200) :=
  ⟨(startGracePeriod_spec cbDeployed 1 50 100 rfl).1 (by decide),
   ((startGracePeriod_spec cbDeployed 1 200 100 rfl).2 (by decide)).1,
   ((startGracePeriod_spec cbDeployed 1 200 100 rfl).2 (by decide)).2 199,
   ((startGracePeriod_spec cbDeployed 1 200 100 rfl).2 (by decide)).2 200⟩

/-! ## C6 -/

/-- C6: `addSecurityParameter` fails with `AlreadyExists` when the identifier
is already registered, fails with `InvalidBps` whenever
`minLiqRetainedBps > 10000`, accepts any `minLiqRetainedBps` in `[0, 10000]`,
and a successful add emits `SecurityParameterAdded` carrying exactly the
supplied arguments. -/
theorem addSecurityParameter_spec (cb : CircuitBreaker) (caller : Addr)
    (identifier : Identifier) (minLiqRetainedBps limitBeginThreshold : Nat)
    (settlementModule : Addr) (hown : caller = cb.owner) :
    ((getLimiter cb identifier).isSome = true →
      addSecurityParameter cb caller identifier minLiqRetainedBps
        limitBeginThreshold settlementModule = .error .AlreadyExists) ∧
    ((getLimiter cb identifier).isSome = false → 10000 < minLiqRetainedBps →
      addSecurityParameter cb caller identifier minLiqRetainedBps
        limitBeginThreshold settlementModule = .error .InvalidBps) ∧
    ((getLimiter cb identifier).isSome = false → minLiqRetainedBps ≤ 10000 →
      addSecurityParameter cb caller identifier minLiqRetainedBps
        limitBeginThreshold settlementModule =
        .ok ({ cb with limiters := cb.limiters ++
            [(identifier,
              { minLiqRetainedBps := minLiqRetainedBps
                limitBeginThreshold := limitBeginThreshold
                settlementModule := settlementModule
                liquidityTotal := 0
                rateLimited := false
                lastTripTimestamp := 0
                overridden := false
                ledger := [] })] },
          .SecurityParameterAdded identifier minLiqRetainedBps
            limitBeginThreshold settlementModule)) := by
  refine ⟨fun h => ?_, fun h hb => ?_, fun h hb => ?_⟩
  · simp [addSecurityParameter, hown, h]
  · simp [addSecurityParameter, hown, h, hb]
  · simp [addSecurityParameter, hown, h, Nat.not_lt.mpr hb]

/-- C6 witness: registering identifier 7 on the fresh deployment with
bps 5000 succeeds and emits the notification with the supplied arguments;
registering identifier 7 again on the resulting state fails with
`AlreadyExists`; bps 10001 on a fresh identifier fails with `InvalidBps`. -/
theorem addSecurityParameter_spec_witness :
    addSecurityParameter cbDeployed 1 7 5000 (1000 * 10 ^ 18) 9 =
      .ok ({ cbDeployed with limiters := cbDeployed.limiters ++
          [(7,
            { minLiqRetainedBps := 5000
              limitBeginThreshold := 1000 * 10 ^ 18
              settlementModule := 9
              liquidityTotal := 0
              rateLimited := false
              lastTripTimestamp := 0
              overridden := false
              ledger := [] })] },
        .SecurityParameterAdded 7 5000 (1000 * 10 ^ 18) 9) ∧
    addSecurityParameter cbWithParam 1 7 5000 (1000 * 10 ^ 18) 9 =
      .error .AlreadyExists ∧
    addSecurityParameter cbDeployed 1 8 10001 (1000 * 10 ^ 18) 9 =
      .error .InvalidBps :=
  ⟨(addSecurityParameter_spec cbDeployed 1 7 5000 (1000 * 10 ^ 18) 9 rfl).2.2
      (by decide) (by decide),
   (addSecurityParameter_spec cbWithParam 1 7 5000 (1000 * 10 ^ 18) 9 rfl).1
      (by decide),
   (addSecurityParameter_spec cbDeployed 1 8 10001 (1000 * 10 ^ 18) 9 rfl).2.1
      (by decide) (by decide)⟩

/-! ## C4 -/

/-- C4: `overrideRateLimit(identifier)`, called by the owner at time `now`,
fails with `NotRateLimited` when the identifier's `rateLimited` flag is
false, fails with `CooldownNotElapsed` when
`now - lastTripTimestamp < rateLimitCooldownPeriod`; when `rateLimited` is
true and at least `rateLimitCooldownPeriod` has elapsed since
`lastTripTimestamp` it succeeds, resets `rateLimited` to false, and
recomputes `globalRateLimited` as the logical OR of `rateLimited` over all
identifiers (an error in this functional embedding returns no new state, so
the failure cases leave the state unchanged). -/
theorem overrideRateLimit_spec (cb : CircuitBreaker) (caller : Addr)
    (identifier : Identifier) (now : Nat) (p : SecurityParameter)
    (hown : caller = cb.owner)
    (hlim : getLimiter cb identifier = some p) :
    (p.rateLimited = false →
      overrideRateLimit cb caller identifier now = .error .NotRateLimited) ∧
    (p.rateLimited = true →
      now - p.lastTripTimestamp < cb.rateLimitCooldownPeriod →
      overrideRateLimit cb caller identifier now =
        .error .CooldownNotElapsed) ∧
    (p.rateLimited = true →
      p.lastTripTimestamp + cb.rateLimitCooldownPeriod ≤ now →
      ∃ cb', overrideRateLimit cb caller identifier now = .ok cb' ∧
        (getLimiter cb' identifier).map (fun q => q.rateLimited) =
          some false ∧
        cb'.globalRateLimited =
          cb'.limiters.any (fun q => q.2.rateLimited)) := by
  refine ⟨fun h => ?_, fun h hc => ?_, fun h hc => ?_⟩
  · simp [overrideRateLimit, hown, hlim, h]
  · simp [overrideRateLimit, hown, hlim, h, hc]
  · have hnc : ¬ (now - p.lastTripTimestamp < cb.rateLimitCooldownPeriod) :=
      Nat.not_lt.mpr (Nat.le_sub_of_add_le (by omega))
    refine ⟨{ setLimiter cb identifier { p with rateLimited := false } with
        globalRateLimited :=
          (setLimiter cb identifier
            { p with rateLimited := false }).limiters.any
            (fun q => q.2.rateLimited) }, ?_, ?_, rfl⟩
    · simp [overrideRateLimit, hown, hlim, h, hnc]
    · simpa [setLimiter, getLimiter] using
        congrArg (Option.map (fun q => q.rateLimited))
          (lookupLimiter_updateList_self cb.limiters identifier
            { p with rateLimited := false } p hlim)

/-- C4 witness: on a state where identifier 7 tripped at time 1000 with a
cooldown of 86400, the owner's override fails with `NotRateLimited` before
any trip, fails with `CooldownNotElapsed` at time 87399, and succeeds at
time 87400 clearing the flag. -/
theorem overrideRateLimit_spec_witness :
    overrideRateLimit cbWithParam 1 7 87400 = .error .NotRateLimited ∧
    overrideRateLimit cbTripped 1 7 87399 = .error .CooldownNotElapsed ∧
    ∃ cb', overrideRateLimit cbTripped 1 7 87400 = .ok cb' ∧
      (getLimiter cb' 7).map (fun q => q.rateLimited) = some false ∧
      cb'.globalRateLimited = cb'.limiters.any (fun q => q.2.rateLimited) :=
  ⟨(overrideRateLimit_spec cbWithParam 1 7 87400 pDefault rfl (by decide)).1
      (by decide),
   (overrideRateLimit_spec cbTripped 1 7 87399 pTripped rfl
      (by decide)).2.1 (by decide) (by decide),
   (overrideRateLimit_spec cbTripped 1 7 87400 pTripped rfl
      (by decide)).2.2 (by decide) (by decide)⟩

/-! ## C9 -/

/-- C9: `setLimiterOverriden(identifier, overrideStatus)` sets the
identifier's `overridden` flag to exactly the supplied boolean, returns the
new value of the flag to the caller, and is idempotent: calling it again with
the same boolean leaves the state unchanged. -/
theorem setLimiterOverriden_spec (cb : CircuitBreaker) (caller : Addr)
    (identifier : Identifier) (overrideStatus : Bool) (p : SecurityParameter)
    (hown : caller = cb.owner)
    (hlim : getLimiter cb identifier = some p) :
    setLimiterOverriden cb caller identifier overrideStatus =
      .ok (setLimiter cb identifier { p with overridden := overrideStatus },
        overrideStatus) ∧
    (getLimiter (setLimiter cb identifier
        { p with overridden := overrideStatus }) identifier).map
      (fun q => q.overridden) = some overrideStatus ∧
    setLimiterOverriden
      (setLimiter cb identifier { p with overridden := overrideStatus })
      caller identifier overrideStatus =
      .ok (setLimiter cb identifier { p with overridden := overrideStatus },
        overrideStatus) := by
  have hself := lookupLimiter_updateList_self cb.limiters identifier
    { p with overridden := overrideStatus } p hlim
  refine ⟨?_, ?_, ?_⟩
  · simp [setLimiterOverriden, hown, hlim]
  · simpa [setLimiter, getLimiter] using
      congrArg (Option.map (fun q => q.overridden)) hself
  · simp only [setLimiterOverriden, setLimiter, getLimiter, hown]
    simp only [lookupLimiter] at hself ⊢
    rw [if_neg (by simp)]
    simp [hself, updateList_updateList]

/-- C9 witness: setting the override flag of identifier 7 to true on the
example state returns true, records true, and a repeated call with true is a
no-op returning the same state. -/
theorem setLimiterOverriden_spec_witness :
    setLimiterOverriden cbWithParam 1 7 true =
      .ok (setLimiter cbWithParam 7 { pDefault with overridden := true },
        true) ∧
    (getLimiter (setLimiter cbWithParam 7
        { pDefault with overridden := true }) 7).map
      (fun q => q.overridden) = some true ∧
    setLimiterOverriden
      (setLimiter cbWithParam 7 { pDefault with overridden := true })
      1 7 true =
      .ok (setLimiter cbWithParam 7 { pDefault with overridden := true },
        true) :=
  setLimiterOverriden_spec cbWithParam 1 7 true pDefault rfl (by decide)

/-! ## C1 -/

/-- C1: for every registered identifier and every decrease not covered by a
bypass (not in grace period, not overridden, amount at least
`limitBeginThreshold`), if the projected remaining liquidity
`liquidityTotal - amount` is below the floor
`historicalLiquidity * minLiqRetainedBps / 10000` — computed on the
`liquidityTotal` as it stood before this decrease (spec section 4.2
step 3) — then the call trips: it sets the per-identifier `rateLimited`
flag and the global `globalRateLimited` flag, records
`lastTripTimestamp = now`, and diverts the amount to the settlement module
instead of completing. -/
theorem decreaseParameter_trip (cb : CircuitBreaker) (caller : Addr)
    (identifier : Identifier) (amount : Nat) (token : Addr)
    (settlementAmount payload now : Nat) (p : SecurityParameter)
    (hprot : isProtectedContract cb caller = true)
    (hop : cb.operational = true)
    (hlim : getLimiter cb identifier = some p)
    (hgrace : isInGracePeriod cb now = false)
    (hover : p.overridden = false)
    (hthr : p.limitBeginThreshold ≤ amount)
    (htrip : p.liquidityTotal - (amount : Int) <
      p.liquidityTotal * (p.minLiqRetainedBps : Int) / 10000) :
    ∃ cb' p',
      decreaseParameter cb caller identifier amount token settlementAmount
        payload now =
        .ok (cb', .diverted p.settlementModule identifier amount payload) ∧
      getLimiter cb' identifier = some p' ∧
      p'.rateLimited = true ∧
      p'.lastTripTimestamp = now ∧
      cb'.globalRateLimited = true := by
  refine ⟨{ setLimiter cb identifier
      { p with
        ledger :=
          recordTick p.ledger (tickOf cb.TICK_LENGTH now) (-(amount : Int))
        liquidityTotal := p.liquidityTotal - (amount : Int)
        rateLimited := true
        lastTripTimestamp := now } with globalRateLimited := true },
    { p with
      ledger :=
        recordTick p.ledger (tickOf cb.TICK_LENGTH now) (-(amount : Int))
      liquidityTotal := p.liquidityTotal - (amount : Int)
      rateLimited := true
      lastTripTimestamp := now }, ?_, ?_, rfl, rfl, rfl⟩
  · simp only [decreaseParameter, hprot, hop, hlim]
    simp [hgrace, hover, Nat.not_lt.mpr hthr, htrip]
  · exact lookupLimiter_updateList_self cb.limiters identifier _ p hlim

/-- C1 witness: on the spec scenario state (deploy with tick length 600,
withdrawal period 172800, register identifier 7 with bps 5000 and threshold
`1000e18`, increase by `2000e18` at time 700), a decrease of `1100e18` at
time 800 trips: remaining `900e18` is below `1000e18`, half of the
`2000e18` historical liquidity. -/
theorem decreaseParameter_trip_witness :
    ∃ cb' p',
      decreaseParameter cbScenario3 2 7 (1100 * 10 ^ 18) 0 0 0 800 =
        .ok (cb', .diverted 9 7 (1100 * 10 ^ 18) 0) ∧
      getLimiter cb' 7 = some p' ∧
      p'.rateLimited = true ∧
      p'.lastTripTimestamp = 800 ∧
      cb'.globalRateLimited = true :=
  decreaseParameter_trip cbScenario3 2 7 (1100 * 10 ^ 18) 0 0 0 800 pScenario
    (by decide) (by decide) (by decide) (by decide) (by decide) (by decide)
    (by decide)

/-! ## C3 -/

/-- C3: for every configuration and every registered identifier, a decrease
whose amount is strictly below that identifier's `limitBeginThreshold` never
trips the breaker: once past the access gate the call is allowed
unconditionally (it completes normally, with no diversion), and the
per-identifier and global `rateLimited` flags are unchanged. -/
theorem decreaseParameter_deminimis (cb : CircuitBreaker) (caller : Addr)
    (identifier : Identifier) (amount : Nat) (token : Addr)
    (settlementAmount payload now : Nat) (p : SecurityParameter)
    (hlim : getLimiter cb identifier = some p)
    (hthr : amount < p.limitBeginThreshold) :
    (isProtectedContract cb caller = true → cb.operational = true →
      decreaseParameter cb caller identifier amount token settlementAmount
        payload now =
      .ok (setLimiter cb identifier
        { p with
          ledger :=
            recordTick p.ledger (tickOf cb.TICK_LENGTH now) (-(amount : Int))
          liquidityTotal := p.liquidityTotal - (amount : Int) },
        .completed)) ∧
    ∀ cb' res,
      decreaseParameter cb caller identifier amount token settlementAmount
        payload now = .ok (cb', res) →
      res = DecreaseOutcome.completed ∧
      cb'.globalRateLimited = cb.globalRateLimited ∧
      ∀ i, (getLimiter cb' i).map (fun q => q.rateLimited) =
        (getLimiter cb i).map (fun q => q.rateLimited) := by
  constructor
  · intro hprot hop
    simp only [decreaseParameter, hprot, hop, hlim]
    simp [hthr]
  intro cb' res h
  simp only [decreaseParameter, hlim] at h
  by_cases h1 : isProtectedContract cb caller = false
  · simp [h1] at h
  · rw [if_neg h1] at h
    by_cases h2 : cb.operational = false
    · simp [h2] at h
    · rw [if_neg h2] at h
      rw [if_pos (by simp [hthr])] at h
      obtain ⟨hcb, hres⟩ := by simpa using h
      refine ⟨hres.symm, ?_, ?_⟩
      · rw [← hcb]; rfl
      · intro i
        rw [← hcb]
        by_cases hi : i = identifier
        · subst hi
          rw [show getLimiter (setLimiter cb i _) i =
              some { p with
                ledger := recordTick p.ledger (tickOf cb.TICK_LENGTH now)
                  (-(amount : Int))
                liquidityTotal := p.liquidityTotal - (amount : Int) } from
            lookupLimiter_updateList_self cb.limiters i _ p hlim, hlim]
          rfl
        · rw [show getLimiter (setLimiter cb identifier _) i =
              getLimiter cb i from
            lookupLimiter_updateList_ne cb.limiters identifier i _ hi]

/-- C3 witness: on the spec scenario state, a decrease of `50e18` (below the
`1000e18` threshold) at time 800 completes normally and leaves the
per-identifier and global rate-limited flags unchanged. -/
theorem decreaseParameter_deminimis_witness :
    cbAfterSmallDecrease.globalRateLimited = cbScenario3.globalRateLimited ∧
    (getLimiter cbAfterSmallDecrease 7).map (fun q => q.rateLimited) =
      (getLimiter cbScenario3 7).map (fun q => q.rateLimited) :=
  have h := (decreaseParameter_deminimis cbScenario3 2 7 (50 * 10 ^ 18) 0 0 0
    800 pScenario (by decide) (by decide)).2 cbAfterSmallDecrease
    DecreaseOutcome.completed (by decide)
  ⟨h.2.1, h.2.2 7⟩

/-! ## C2 -/

theorem windowedSum_nil (W asOf : Nat) : windowedSum W [] asOf = 0 := rfl

theorem windowedSum_cons (W asOf t : Nat) (a : Int) (rest : Ledger) :
    windowedSum W ((t, a) :: rest) asOf =
      (if inWindow W asOf t then a else 0) + windowedSum W rest asOf := by
  simp only [windowedSum, List.filter_cons]
  split
  · simp
  · simp

theorem windowedSum_recordTick (W : Nat) (led : Ledger) (tick : Nat) (d : Int)
    (asOf : Nat) :
    windowedSum W (recordTick led tick d) asOf =
      windowedSum W led asOf + (if inWindow W asOf tick then d else 0) := by
  induction led with
  | nil =>
    simp only [recordTick, windowedSum_cons, windowedSum_nil]
    ring
  | cons hd tl ih =>
    obtain ⟨t, a⟩ := hd
    simp only [recordTick]
    by_cases h1 : tick < t
    · rw [if_pos h1, windowedSum_cons, windowedSum_cons]
      ring
    · rw [if_neg h1]
      by_cases h2 : tick = t
      · subst h2
        rw [if_pos rfl, windowedSum_cons, windowedSum_cons]
        split
        · ring
        · ring
      · rw [if_neg h2, windowedSum_cons, windowedSum_cons, ih]
        ring

theorem windowedSum_foldl (W TL asOf : Nat) (ops : List (Nat × Int)) :
    ∀ led : Ledger,
      windowedSum W
        (ops.foldl (fun l op => recordTick l (tickOf TL op.1) op.2) led)
        asOf =
      windowedSum W led asOf +
        (ops.map (fun op =>
          if inWindow W asOf (tickOf TL op.1) then op.2 else 0)).sum := by
  induction ops with
  | nil => intro led; simp
  | cons op rest ih =>
    intro led
    simp only [List.foldl_cons, List.map_cons, List.sum_cons]
    rw [ih, windowedSum_recordTick]
    ring

theorem recordTick_mem_new (led : Ledger) (tick : Nat) (d : Int) :
    ∃ a, (tick, a) ∈ recordTick led tick d := by
  induction led with
  | nil => exact ⟨d, List.mem_cons_self _ _⟩
  | cons hd tl ih =>
    obtain ⟨t, b⟩ := hd
    simp only [recordTick]
    by_cases h1 : tick < t
    · exact ⟨d, by rw [if_pos h1]; exact List.mem_cons_self _ _⟩
    · rw [if_neg h1]
      by_cases h2 : tick = t
      · subst h2
        exact ⟨b + d, by rw [if_pos rfl]; exact List.mem_cons_self _ _⟩
      · obtain ⟨a, ha⟩ := ih
        exact ⟨a, by rw [if_neg h2]; exact List.mem_cons_of_mem _ ha⟩

theorem recordTick_mem_keep (led : Ledger) (t0 : Nat) (a0 : Int)
    (tick : Nat) (d : Int) (h : (t0, a0) ∈ led) :
    ∃ a, (t0, a) ∈ recordTick led tick d := by
  induction led with
  | nil => simp at h
  | cons hd tl ih =>
    obtain ⟨t, b⟩ := hd
    simp only [recordTick]
    by_cases h1 : tick < t
    · exact ⟨a0, by rw [if_pos h1]; exact List.mem_cons_of_mem _ h⟩
    · rw [if_neg h1]
      by_cases h2 : tick = t
      · subst h2
        rw [if_pos rfl]
        rcases List.mem_cons.mp h with heq | hmem
        · obtain ⟨ht, hb⟩ := Prod.mk.injEq .. ▸ heq
          injection heq with heq1 heq2
          subst heq1
          exact ⟨b + d, List.mem_cons_self _ _⟩
        · exact ⟨a0, List.mem_cons_of_mem _ hmem⟩
      · rw [if_neg h2]
        rcases List.mem_cons.mp h with heq | hmem
        · exact ⟨a0, heq ▸ List.mem_cons_self _ _⟩
        · obtain ⟨a, ha⟩ := ih hmem
          exact ⟨a, List.mem_cons_of_mem _ ha⟩

theorem foldl_recordTick_mem (TL : Nat) (ops : List (Nat × Int)) :
    ∀ (led : Ledger) (t0 : Nat) (a0 : Int), (t0, a0) ∈ led →
      ∃ a, (t0, a) ∈
        ops.foldl (fun l op => recordTick l (tickOf TL op.1) op.2) led := by
  induction ops with
  | nil => exact fun led t0 a0 h => ⟨a0, h⟩
  | cons op rest ih =>
    intro led t0 a0 h
    obtain ⟨a, ha⟩ := recordTick_mem_keep led t0 a0 (tickOf TL op.1) op.2 h
    exact ih _ t0 a ha

theorem buildLedger_mem (TL : Nat) (ops : List (Nat × Int)) :
    ∀ op ∈ ops, ∃ a, (tickOf TL op.1, a) ∈ buildLedger TL ops := by
  have key : ∀ (ops : List (Nat × Int)) (led : Ledger), ∀ op ∈ ops,
      ∃ a, (tickOf TL op.1, a) ∈
        ops.foldl (fun l o => recordTick l (tickOf TL o.1) o.2) led := by
    intro ops
    induction ops with
    | nil => intro led op h; simp at h
    | cons o rest ih =>
      intro led op h
      rcases List.mem_cons.mp h with heq | hmem
      · subst heq
        obtain ⟨a, ha⟩ := recordTick_mem_new led (tickOf TL op.1) op.2
        exact foldl_recordTick_mem TL rest _ _ a ha
      · exact ih _ op hmem
  exact key ops []

/-- C2: for every identifier history and every as-of time,
`windowedSum(identifier, asOf)` over the ledger built by recording any list
of deltas equals the exact signed sum of all recorded deltas whose tick
timestamp lies in the inclusive interval `[asOf - WITHDRAWAL_PERIOD, asOf]`;
the result is independent of the order the deltas were inserted in; deltas
whose tick timestamp is outside the window contribute zero to the sum but
their tick node is not removed from the chain. -/
theorem windowedSum_exact (W TL asOf : Nat) (ops : List (Nat × Int)) :
    windowedSum W (buildLedger TL ops) asOf =
      (ops.map (fun op =>
        if inWindow W asOf (tickOf TL op.1) then op.2 else 0)).sum ∧
    (∀ ops₂, ops.Perm ops₂ →
      windowedSum W (buildLedger TL ops₂) asOf =
        windowedSum W (buildLedger TL ops) asOf) ∧
    (∀ op ∈ ops, ∃ a, (tickOf TL op.1, a) ∈ buildLedger TL ops) := by
  have main : ∀ l : List (Nat × Int),
      windowedSum W (buildLedger TL l) asOf =
        (l.map (fun op =>
          if inWindow W asOf (tickOf TL op.1) then op.2 else 0)).sum := by
    intro l
    rw [buildLedger, windowedSum_foldl, windowedSum_nil, zero_add]
  refine ⟨main ops, fun ops₂ hperm => ?_, buildLedger_mem TL ops⟩
  rw [main ops, main ops₂]
  exact List.Perm.sum_eq (List.Perm.map _ hperm.symm)

/-- C2 witness: with `WITHDRAWAL_PERIOD = 100`, `TICK_LENGTH = 10` and
as-of time 120, the deltas at raw timestamps 5 (tick 0, stale), 200 (tick
200, future), 27 and 23 (both tick 20, live) sum to their in-window part
regardless of insertion order, and the stale tick stays in the chain. -/
theorem windowedSum_exact_witness :
    windowedSum 100 (buildLedger 10 [(5, 3), (200, 7), (27, -2), (23, 6)])
      120 =
      ([((5 : Nat), (3 : Int)), (200, 7), (27, -2), (23, 6)].map
        (fun op => if inWindow 100 120 (tickOf 10 op.1) then op.2 else 0)).sum ∧
    windowedSum 100 (buildLedger 10 [(200, 7), (23, 6), (5, 3), (27, -2)])
      120 =
      windowedSum 100 (buildLedger 10 [(5, 3), (200, 7), (27, -2), (23, 6)])
        120 ∧
    ∃ a, (tickOf 10 (5 : Nat), a) ∈
      buildLedger 10 [(5, 3), (200, 7), (27, -2), (23, 6)] :=
  ⟨(windowedSum_exact 100 10 120 [(5, 3), (200, 7), (27, -2), (23, 6)]).1,
   (windowedSum_exact 100 10 120 [(5, 3), (200, 7), (27, -2), (23, 6)]).2.1
      [(200, 7), (23, 6), (5, 3), (27, -2)] (by decide),
   (windowedSum_exact 100 10 120 [(5, 3), (200, 7), (27, -2), (23, 6)]).2.2
      (5, 3) (by decide)⟩

/-! ## C8 -/

theorem evict_snd_le (led : Ledger) (cutoff : Nat) :
    ∀ m : Nat, (evict led cutoff m).2 ≤ m := by
  induction led with
  | nil => intro m; cases m <;> simp [evict]
  | cons hd tl ih =>
    intro m
    obtain ⟨t, a⟩ := hd
    cases m with
    | zero => simp [evict]
    | succ m =>
      simp only [evict]
      split
      · simpa using ih m
      · simp

theorem evict_fst_drop (led : Ledger) (cutoff : Nat) :
    ∀ m : Nat, (evict led cutoff m).1 = led.drop (evict led cutoff m).2 := by
  induction led with
  | nil => intro m; cases m <;> simp [evict]
  | cons hd tl ih =>
    intro m
    obtain ⟨t, a⟩ := hd
    cases m with
    | zero => simp [evict]
    | succ m =>
      simp only [evict]
      split
      · simpa using ih m
      · simp

theorem evict_take_stale (led : Ledger) (cutoff : Nat) :
    ∀ m : Nat, ∀ node ∈ led.take (evict led cutoff m).2, node.1 < cutoff := by
  induction led with
  | nil => intro m node h; cases m <;> simp [evict] at h
  | cons hd tl ih =>
    intro m node h
    obtain ⟨t, a⟩ := hd
    cases m with
    | zero => simp [evict] at h
    | succ m =>
      simp only [evict] at h
      by_cases hc : t < cutoff
      · rw [if_pos hc] at h
        simp only [List.take_succ_cons] at h
        rcases List.mem_cons.mp h with heq | hmem
        · subst heq; exact hc
        · exact ih m node hmem
      · rw [if_neg hc] at h
        simp at h

theorem chain_all_ge (cutoff : Nat) :
    ∀ (rest : Ledger) (t : Nat) (a : Int),
      List.Chain' (fun x y => x.1 < y.1) ((t, a) :: rest) → cutoff ≤ t →
      ∀ node ∈ (t, a) :: rest, cutoff ≤ node.1 := by
  intro rest
  induction rest with
  | nil =>
    intro t a _ ht node hmem
    rcases List.mem_cons.mp hmem with heq | hmem
    · subst heq; exact ht
    · simp at hmem
  | cons hd2 tl2 ih =>
    intro t a hchain ht node hmem
    obtain ⟨t2, a2⟩ := hd2
    have hlt : t < t2 := (List.chain'_cons.mp hchain).1
    have htail : List.Chain' (fun x y => x.1 < y.1) ((t2, a2) :: tl2) :=
      (List.chain'_cons.mp hchain).2
    rcases List.mem_cons.mp hmem with heq | hmem
    · subst heq; exact ht
    · exact ih t2 a2 htail (le_of_lt (Nat.lt_of_le_of_lt ht hlt)) node hmem

theorem evict_complete (cutoff : Nat) :
    ∀ (led : Ledger) (m : Nat),
      List.Chain' (fun x y => x.1 < y.1) led →
      (evict led cutoff m).2 < m →
      ∀ node ∈ (evict led cutoff m).1, cutoff ≤ node.1 := by
  intro led
  induction led with
  | nil => intro m _ _ node h; cases m <;> simp [evict] at h
  | cons hd tl ih =>
    intro m hchain hcount node h
    obtain ⟨t, a⟩ := hd
    cases m with
    | zero => simp [evict] at hcount
    | succ m =>
      simp only [evict] at hcount h
      by_cases hc : t < cutoff
      · rw [if_pos hc] at hcount h
        exact ih m hchain.tail (by simpa using hcount) node (by simpa using h)
      · rw [if_neg hc] at h
        exact chain_all_ge cutoff tl t a hchain (Nat.not_lt.mp hc) node
          (by simpa using h)

/-- C8: `clearBackLog(identifier, maxIterations)` removes at most
`maxIterations` tick nodes per call, removes only a prefix of nodes whose
tick timestamp is strictly older than `now - WITHDRAWAL_PERIOD` (never a
live node inside the window: when fewer than `maxIterations` nodes were
removed from a time-ordered chain, every retained node is at or after the
cutoff, so repeated calls converge to zero stale nodes), and returns the
count of nodes actually removed. -/
theorem clearBackLog_spec (cb : CircuitBreaker) (caller : Addr)
    (identifier : Identifier) (maxIterations now : Nat)
    (p : SecurityParameter)
    (hown : caller = cb.owner)
    (hlim : getLimiter cb identifier = some p) :
    ∃ cb' count,
      clearBackLog cb caller identifier maxIterations now =
        .ok (cb', count) ∧
      count ≤ maxIterations ∧
      (getLimiter cb' identifier).map (fun q => q.ledger) =
        some (p.ledger.drop count) ∧
      (∀ node ∈ p.ledger.take count, node.1 < now - cb.WITHDRAWAL_PERIOD) ∧
      (List.Chain' (fun x y => x.1 < y.1) p.ledger →
        count < maxIterations →
        ∀ node ∈ p.ledger.drop count,
          now - cb.WITHDRAWAL_PERIOD ≤ node.1) := by
  refine ⟨setLimiter cb identifier
      { p with ledger :=
          (evict p.ledger (now - cb.WITHDRAWAL_PERIOD) maxIterations).1 },
    (evict p.ledger (now - cb.WITHDRAWAL_PERIOD) maxIterations).2,
    ?_, evict_snd_le p.ledger _ maxIterations, ?_, ?_, ?_⟩
  · simp [clearBackLog, hown, hlim]
  · rw [show getLimiter (setLimiter cb identifier _) identifier = _ from
      lookupLimiter_updateList_self cb.limiters identifier _ p hlim]
    simp only [Option.map_some']
    rw [← evict_fst_drop p.ledger (now - cb.WITHDRAWAL_PERIOD) maxIterations]
  · exact evict_take_stale p.ledger _ maxIterations
  · intro hchain hcount node hmem
    refine evict_complete (now - cb.WITHDRAWAL_PERIOD) p.ledger maxIterations
      hchain hcount node ?_
    rw [evict_fst_drop p.ledger (now - cb.WITHDRAWAL_PERIOD) maxIterations]
    exact hmem

/-- C8 witness: on the example chain with stale nodes at ticks 0 and 3600
and a live node at 700000, a `clearBackLog` by the owner at time 700500
with `maxIterations = 10` removes exactly the two stale nodes, keeps the
live one, and reports count 2, below the iteration bound. -/
theorem clearBackLog_spec_witness :
    ∃ cb' count,
      clearBackLog cbLedgered 1 7 10 700500 = .ok (cb', count) ∧
      count ≤ 10 ∧
      (getLimiter cb' 7).map (fun q => q.ledger) =
        some (pLedgered.ledger.drop count) ∧
      (∀ node ∈ pLedgered.ledger.take count,
        node.1 < 700500 - cbLedgered.WITHDRAWAL_PERIOD) ∧
      (List.Chain' (fun x y => x.1 < y.1) pLedgered.ledger →
        count < 10 →
        ∀ node ∈ pLedgered.ledger.drop count,
          700500 - cbLedgered.WITHDRAWAL_PERIOD ≤ node.1) :=
  clearBackLog_spec cbLedgered 1 7 10 700500 pLedgered rfl (by decide)
